import Mathlib

/-!
Shallow embedding of the real-time status synchronization layer of the
LimAuto frontend, together with theorems settling the spec claims.

Sources embedded:
- `src/frontend/src/hooks/useEnhancedWebSocket.ts` — WebSocket connection
  manager with bounded reconnect policy, bounded message ring buffer,
  `sendMessage`, manual `disconnect`.
- `src/frontend/src/hooks/useRealTimeStatus.ts` — EventSource (SSE) client
  merging per-agent status events into a `Record<string, AgentStatus>`.
- `src/frontend/src/hooks/useAgentStatus.ts` — minimal SSE status hook with
  a window event dispatch on each decoded frame.
- `src/frontend/src/components/BookGenerationForm.tsx` (`AgentProgress`) —
  WebSocket message dispatcher for `complete_status` / `workflow_progress` /
  `agent_status` frames.
-/

namespace LimAuto

/-! ## useEnhancedWebSocket.ts: data model -/

/-- The `connectionStatus` state values of `useEnhancedWebSocket`. -/
inductive ConnStatus where
  | connecting
  | connected
  | disconnected
  | error
deriving DecidableEq

/-- WebSocket `readyState` values of the browser transport object. -/
inductive ReadyState where
  | connecting
  | opened
  | closing
  | closed
deriving DecidableEq

/-- The `WebSocketMessage` record of `useEnhancedWebSocket.ts`
(timestamps abstracted to a tick counter). -/
structure WebSocketMessage where
  id : String
  message : String
  timestamp : Nat
  type : String
deriving DecidableEq

/-- The mutable state of one `useEnhancedWebSocket` hook instance:
React state (`messages`, `isConnected`, `connectionStatus`, `lastMessage`)
and refs (`wsRef` modelled by the socket's ready state, `reconnectTimeoutRef`
modelled by `pendingTimer`, `reconnectAttemptsRef`, `messageIdRef`).
`sentFrames` records the frames actually handed to the transport's `send`. -/
structure WsState where
  messages : List WebSocketMessage
  isConnected : Bool
  connectionStatus : ConnStatus
  lastMessage : Option WebSocketMessage
  ws : Option ReadyState
  pendingTimer : Bool
  reconnectAttempts : Nat
  messageId : Nat
  sentFrames : List String
deriving DecidableEq

/-- JavaScript `arr.slice(-n)` for a nonnegative count `n`: for `n = 0`
`slice(-0)` is `slice(0)`, a copy of the whole array; otherwise the last
`min n arr.length` elements. -/
def jsSliceLast {α : Type} (n : Nat) (l : List α) : List α :=
  if n = 0 then l else l.drop (l.length - n)

/-- The `setMessages` updater shared by `ws.onmessage` and `sendMessage`:
`updated = [...prev, msg]; updated.length > maxMessages ?
updated.slice(-maxMessages) : updated`. -/
def appendBounded (maxMessages : Nat) (buf : List WebSocketMessage)
    (m : WebSocketMessage) : List WebSocketMessage :=
  let updated := buf ++ [m]
  if updated.length > maxMessages then jsSliceLast maxMessages updated else updated

/-- `connect()` of `useEnhancedWebSocket.ts`: returns unchanged when the
current socket is already OPEN; otherwise sets `connecting` and installs a
fresh socket, or ends in `error` when the constructor throws
(`ctorOk = false`). -/
def connect (ctorOk : Bool) (s : WsState) : WsState :=
  if s.ws = some ReadyState.opened then s
  else if ctorOk then
    { s with connectionStatus := ConnStatus.connecting, ws := some ReadyState.connecting }
  else
    { s with connectionStatus := ConnStatus.error }

/-- `ws.onopen`: connected, attempt counter reset to 0. -/
def onOpen (s : WsState) : WsState :=
  { s with isConnected := true, connectionStatus := ConnStatus.connected,
           reconnectAttempts := 0, ws := some ReadyState.opened }

/-- `ws.onclose` with close code `code`: clears the connected flags and the
socket ref; when the close is abnormal (`code ≠ 1000`) and the attempt
budget is not exhausted, increments the counter and schedules a retry timer.
The boolean result records whether a reconnect attempt was scheduled. -/
def onCloseStep (maxReconnectAttempts : Nat) (code : Nat) (s : WsState) :
    WsState × Bool :=
  let s1 : WsState :=
    { s with isConnected := false, connectionStatus := ConnStatus.disconnected, ws := none }
  if code ≠ 1000 ∧ s1.reconnectAttempts < maxReconnectAttempts then
    ({ s1 with reconnectAttempts := s1.reconnectAttempts + 1, pendingTimer := true }, true)
  else (s1, false)

/-- `ws.onerror`: status becomes `error`. -/
def onError (s : WsState) : WsState :=
  { s with connectionStatus := ConnStatus.error }

/-- `disconnect()` of `useEnhancedWebSocket.ts`: clears any pending retry
timer, closes the socket with the manual code 1000 and drops the ref,
and marks the hook disconnected. -/
def disconnect (s : WsState) : WsState :=
  { s with pendingTimer := false, ws := none, isConnected := false,
           connectionStatus := ConnStatus.disconnected }

/-- `ws.onmessage`: builds the received `WebSocketMessage` with the next id,
appends it to the bounded buffer and records it as `lastMessage`. -/
def wsOnMessage (maxMessages : Nat) (now : Nat) (dataStr : String) (s : WsState) :
    WsState :=
  let newMessage : WebSocketMessage :=
    { id := "msg-" ++ toString s.messageId, message := dataStr,
      timestamp := now, type := "received" }
  { s with messageId := s.messageId + 1,
           messages := appendBounded maxMessages s.messages newMessage,
           lastMessage := some newMessage }

/-- `sendMessage(data)`: only acts when the socket is OPEN; hands the frame
to the transport, and only when that send does not throw (`sendOk`) builds
the sent record, bumps the id counter and appends to the bounded buffer.
Otherwise (not open, or send threw) only a console message is produced and
the state is untouched. -/
def sendMessage (maxMessages : Nat) (sendOk : Bool) (now : Nat) (dataStr : String)
    (s : WsState) : WsState :=
  if s.ws = some ReadyState.opened then
    if sendOk then
      let sentMessage : WebSocketMessage :=
        { id := "msg-" ++ toString s.messageId, message := dataStr,
          timestamp := now, type := "sent" }
      { s with sentFrames := s.sentFrames ++ [dataStr],
               messageId := s.messageId + 1,
               messages := appendBounded maxMessages s.messages sentMessage }
    else s
  else s

/-- One abnormal-close round: the close event is processed; when a retry was
scheduled, the timer later fires and runs `connect()` (which succeeds in
creating a fresh, not-yet-open socket). The boolean records whether this
round scheduled a reconnect attempt. -/
def retryRound (maxAttempts code : Nat) (s : WsState) : WsState × Bool :=
  let r := onCloseStep maxAttempts code s
  if r.2 then (connect true { r.1 with pendingTimer := false }, true) else r

/-- `n` consecutive close rounds (no intervening successful open or manual
close), earliest round applied first. -/
def iterRounds (maxAttempts code : Nat) : Nat → WsState → WsState
  | 0, s => s
  | n + 1, s => (retryRound maxAttempts code (iterRounds maxAttempts code n s)).1

/-! ## useRealTimeStatus.ts: data model -/

/-- The `AgentStatus` record of `src/frontend/src/api/client.ts` as stored
in the `agentStatuses` map (status kept as the raw string the producer sent,
since the handler stores `data.status` verbatim). -/
structure AgentStatusR where
  agent : String
  status : String
  progress : Option Int
  message : Option String
  timestamp : String
deriving DecidableEq

/-- The fields the `eventSource.onmessage` handler reads from one decoded
JSON frame, together with `receivedAt`, the value of
`new Date().toISOString()` at processing time. -/
structure AgentEvent where
  agent : String
  status : String
  progress : Option Int
  message : Option String
  timestamp : Option String
  receivedAt : String
deriving DecidableEq

/-- `data.timestamp || new Date().toISOString()`: a missing or empty
(falsy) timestamp string falls back to the receipt time. -/
def resolveTimestamp (t : Option String) (receivedAt : String) : String :=
  match t with
  | none => receivedAt
  | some s => if s = "" then receivedAt else s

/-- The entry stored for the event's agent by the `onmessage` handler. -/
def mkAgentStatus (e : AgentEvent) : AgentStatusR :=
  { agent := e.agent, status := e.status, progress := e.progress,
    message := e.message, timestamp := resolveTimestamp e.timestamp e.receivedAt }

/-- The `agentStatuses` map, `Record<string, AgentStatus>`. -/
def AgentMap := String → Option AgentStatusR

/-- The `setAgentStatuses(prev => ({...prev, [data.agent]: {...}}))` updater:
pointwise override of the single key `data.agent`. -/
def updateAgent (m : AgentMap) (e : AgentEvent) : AgentMap :=
  fun k => if k = e.agent then some (mkAgentStatus e) else m k

/-- Applying a finite sequence of decoded agent events in arrival order. -/
def applyEvents (m : AgentMap) (es : List AgentEvent) : AgentMap :=
  es.foldl updateAgent m

/-- The React state of one `useRealTimeStatus` hook instance. -/
structure RtSnap where
  agentStatuses : AgentMap
  isConnected : Bool
  error : Option String
  lastUpdate : Option String

/-- The whole `eventSource.onmessage` handler: `JSON.parse` (modelled by the
host `parse` function returning the fields the handler reads, `none` when it
throws); on success the map is updated and `lastUpdate` set; on parse failure
the catch block only logs, so the state is returned unchanged. -/
def handleFrame (parse : String → Option AgentEvent) (raw : String)
    (st : RtSnap) : RtSnap :=
  match parse raw with
  | none => st
  | some e =>
      { st with agentStatuses := updateAgent st.agentStatuses e,
                lastUpdate := some e.receivedAt }

/-! ## useAgentStatus.ts (src/unnamed/part_001): data model -/

/-- The `AgentStatus` interface of `useAgentStatus.ts`. -/
structure ASData where
  current_agent : String
  next_agent : String
  progress_percent : Int
deriving DecidableEq

/-- The `es.onmessage` handler of `useAgentStatus`: parse the frame; on
success store it and dispatch an `agentStatusUpdate` window event (the
`notified` list records the dispatched payloads); on parse failure the
catch block ignores the error and nothing changes. -/
def uasOnMessage (parse : String → Option ASData) (raw : String)
    (st : Option ASData) (notified : List ASData) : Option ASData × List ASData :=
  match parse raw with
  | none => (st, notified)
  | some d => (some d, notified ++ [d])

/-! ## AgentProgress dispatcher (BookGenerationForm.tsx): data model -/

/-- The `EnhancedAgentStatus` interface of `BookGenerationForm.tsx`
(numeric fields as integers; the dispatcher moves them inertly). -/
structure EnhancedAgentStatus where
  agent_name : String
  agent_type : String
  current_step : String
  status : String
  progress_percent : Int
  iteration_count : Int
  max_iterations : Int
  quality_score : Int
  start_time : String
  estimated_completion : String
  domain : String
  word_count : Int
  tokens_used : Int
  errors : List String
  warnings : List String

/-- The `WorkflowProgress` interface of `BookGenerationForm.tsx`. -/
structure WorkflowProgressR where
  total_agents : Int
  completed_agents : Int
  current_agent : String
  next_agent : Option String
  overall_progress : Int
  estimated_time_remaining : String
  quality_score : Int
  book_title : String
  chapter_count : Int
  word_count : Int

/-- The `enhancedStatus` state shape of `AgentProgress`
(`quality_metrics` is an uninterpreted `any` payload). -/
structure EnhancedStatusState where
  agents : String → Option EnhancedAgentStatus
  workflow_progress : Option WorkflowProgressR
  quality_metrics : Option String

/-- A decoded WebSocket status frame as discriminated by `data.type`. -/
inductive WsStatusEvent where
  | complete_status (d : EnhancedStatusState)
  | workflow_progress (d : EnhancedStatusState)
  | agent_status (a : EnhancedAgentStatus)
  | other

/-- The `AgentProgress` message effect: `complete_status` and
`workflow_progress` frames call `setEnhancedStatus(data.data)`, replacing
the whole state wholesale; `agent_status` merges one entry into the agents
map (spreading a `null` previous state yields an empty object); any other
discriminator leaves the state alone. -/
def applyWsStatusEvent (s : Option EnhancedStatusState) (ev : WsStatusEvent) :
    Option EnhancedStatusState :=
  match ev with
  | WsStatusEvent.complete_status d => some d
  | WsStatusEvent.workflow_progress d => some d
  | WsStatusEvent.agent_status a =>
      some { agents := fun k =>
               if k = a.agent_name then some a
               else match s with
                    | some p => p.agents k
                    | none => none,
             workflow_progress :=
               match s with
               | some p => p.workflow_progress
               | none => none,
             quality_metrics :=
               match s with
               | some p => p.quality_metrics
               | none => none }
  | WsStatusEvent.other => s

/-! ## useRealTimeStatus.ts: connection bookkeeping -/

/-- Transport bookkeeping of one `useRealTimeStatus` instance: the current
`EventSource` (by identity), a counter minting identities for created
transports, and the identities that have been `close()`d. -/
structure RtConnState where
  es : Option Nat
  nextId : Nat
  closedIds : List Nat
  isConnected : Bool
  error : Option String
deriving DecidableEq

/-- `connect()` of `useRealTimeStatus.ts`: always closes any existing
`EventSource` and then creates a fresh one via `apiClient.createEventSource()`. -/
def rtConnect (s : RtConnState) : RtConnState :=
  { s with
    closedIds :=
      match s.es with
      | some i => i :: s.closedIds
      | none => s.closedIds,
    es := some s.nextId,
    nextId := s.nextId + 1 }

/-! ## Reconnect policy lemmas -/

lemma retryRound_sched (N c : Nat) (s : WsState) (hc : c ≠ 1000)
    (h : s.reconnectAttempts < N) :
    retryRound N c s =
      ({ s with isConnected := false, connectionStatus := ConnStatus.connecting,
                ws := some ReadyState.connecting, pendingTimer := false,
                reconnectAttempts := s.reconnectAttempts + 1 }, true) := by
  simp [retryRound, onCloseStep, connect, hc, h]

lemma retryRound_nosched (N c : Nat) (s : WsState)
    (h : ¬(c ≠ 1000 ∧ s.reconnectAttempts < N)) :
    retryRound N c s =
      ({ s with isConnected := false, connectionStatus := ConnStatus.disconnected,
                ws := none }, false) := by
  simp only [retryRound, onCloseStep]
  rw [if_neg h]
  simp

lemma iterRounds_invariant (N c : Nat) (hc : c ≠ 1000) (s0 : WsState)
    (h0 : s0.reconnectAttempts = 0) (hp : s0.pendingTimer = false) :
    ∀ i, i ≤ N →
      (iterRounds N c i s0).reconnectAttempts = i ∧
      (iterRounds N c i s0).pendingTimer = false := by
  intro i
  induction i with
  | zero => intro _; exact ⟨h0, hp⟩
  | succ n ih =>
      intro hn
      have hn' : n ≤ N := Nat.le_of_succ_le hn
      obtain ⟨ha, hptm⟩ := ih hn'
      have hlt : (iterRounds N c n s0).reconnectAttempts < N := by omega
      simp only [iterRounds]
      rw [retryRound_sched N c _ hc hlt]
      exact ⟨by simp [ha], rfl⟩

/-- A freshly connected hook state: connected, zero consumed attempts,
no pending retry timer. -/
def wsFreshC : WsState :=
  { messages := [], isConnected := true, connectionStatus := ConnStatus.connected,
    lastMessage := none, ws := some ReadyState.opened, pendingTimer := false,
    reconnectAttempts := 0, messageId := 0, sentFrames := [] }

/-- C1: from a freshly connected state (attempt counter 0, no pending timer),
under a policy of `N` max reconnect attempts, each of the first `N`
consecutive abnormal closes (close code other than the manual code 1000)
finds the attempt counter at its round index and schedules exactly one
reconnect attempt, while the `(N+1)`th abnormal close schedules none and
leaves the connection disconnected with no pending timer. -/
theorem reconnect_budget_exact (N code : Nat) (hcode : code ≠ 1000) (s0 : WsState)
    (h0 : s0.reconnectAttempts = 0) (hp : s0.pendingTimer = false) :
    (∀ i, i < N →
        (iterRounds N code i s0).reconnectAttempts = i ∧
        (retryRound N code (iterRounds N code i s0)).2 = true) ∧
    (iterRounds N code N s0).reconnectAttempts = N ∧
    (retryRound N code (iterRounds N code N s0)).2 = false ∧
    (iterRounds N code (N + 1) s0).connectionStatus = ConnStatus.disconnected ∧
    (iterRounds N code (N + 1) s0).pendingTimer = false := by
  have inv := iterRounds_invariant N code hcode s0 h0 hp
  have hN := inv N le_rfl
  have hnos : ¬(code ≠ 1000 ∧ (iterRounds N code N s0).reconnectAttempts < N) := by
    rintro ⟨-, hlt⟩
    rw [hN.1] at hlt
    omega
  refine ⟨?_, hN.1, ?_, ?_, ?_⟩
  · intro i hi
    obtain ⟨ha, -⟩ := inv i (Nat.le_of_lt hi)
    have hlt : (iterRounds N code i s0).reconnectAttempts < N := by rw [ha]; exact hi
    exact ⟨ha, by rw [retryRound_sched N code _ hcode hlt]⟩
  · rw [retryRound_nosched N code _ hnos]
  · show ((retryRound N code (iterRounds N code N s0)).1.connectionStatus = _)
    rw [retryRound_nosched N code _ hnos]
  · show ((retryRound N code (iterRounds N code N s0)).1.pendingTimer = _)
    rw [retryRound_nosched N code _ hnos]
    exact hN.2

/-- Witness for `reconnect_budget_exact` at `N = 2`, close code 1006. -/
theorem reconnect_budget_exact_witness :
    (1006 : Nat) ≠ 1000 ∧ wsFreshC.reconnectAttempts = 0 ∧
    wsFreshC.pendingTimer = false ∧
    ((∀ i, i < 2 →
        (iterRounds 2 1006 i wsFreshC).reconnectAttempts = i ∧
        (retryRound 2 1006 (iterRounds 2 1006 i wsFreshC)).2 = true) ∧
      (iterRounds 2 1006 2 wsFreshC).reconnectAttempts = 2 ∧
      (retryRound 2 1006 (iterRounds 2 1006 2 wsFreshC)).2 = false ∧
      (iterRounds 2 1006 3 wsFreshC).connectionStatus = ConnStatus.disconnected ∧
      (iterRounds 2 1006 3 wsFreshC).pendingTimer = false) :=
  ⟨by decide, rfl, rfl, reconnect_budget_exact 2 1006 (by decide) wsFreshC rfl rfl⟩

/-! ## Ring buffer lemmas -/

/-- The last `n` elements of a list (all of it when `n ≥ length`). -/
def takeLast {α : Type} (n : Nat) (l : List α) : List α := l.drop (l.length - n)

lemma appendBounded_takeLast (maxM : Nat) (h : 1 ≤ maxM)
    (ms : List WebSocketMessage) (m : WebSocketMessage) :
    appendBounded maxM (takeLast maxM ms) m = takeLast maxM (ms ++ [m]) := by
  unfold appendBounded takeLast jsSliceLast
  simp only [List.length_append, List.length_cons, List.length_nil]
  by_cases hlen : ms.length < maxM
  · have h0 : ms.length - maxM = 0 := by omega
    rw [h0, List.drop_zero]
    rw [if_neg (by simp; omega)]
    have h1 : ms.length + 1 - maxM = 0 := by omega
    rw [h1, List.drop_zero]
  · push_neg at hlen
    have hdl : (ms.drop (ms.length - maxM)).length = maxM := by
      rw [List.length_drop]; omega
    rw [if_pos (by simp only [hdl]; omega)]
    rw [if_neg (by omega)]
    simp only [hdl]
    have h2 : maxM + 1 - maxM = 1 := by omega
    rw [h2]
    rw [List.drop_append_eq_append_drop, List.drop_append_eq_append_drop]
    have h3 : 1 - (ms.drop (ms.length - maxM)).length = 0 := by rw [hdl]; omega
    have h4 : ms.length + 1 - maxM - ms.length = 0 := by omega
    rw [h3, h4]
    simp only [List.drop_zero, List.drop_drop]
    have h5 : ms.length - maxM + 1 = ms.length + (0 + 1) - maxM := by omega
    rw [h5]

lemma foldl_appendBounded (maxM : Nat) (h : 1 ≤ maxM)
    (ms : List WebSocketMessage) :
    List.foldl (appendBounded maxM) [] ms = takeLast maxM ms := by
  induction ms using List.reverseRecOn with
  | nil => simp [takeLast]
  | append_singleton ms m ih =>
      rw [List.foldl_append]
      simp only [List.foldl_cons, List.foldl_nil]
      rw [ih, appendBounded_takeLast maxM h]

/-- A concrete message for the buffer counterexamples and witnesses. -/
def msgC : WebSocketMessage :=
  { id := "msg-0", message := "hello", timestamp := 0, type := "received" }

/-- C5 counterexample: with configured capacity `maxMessages = 0`
(JavaScript `slice(-0)` is `slice(0)`, the whole array), a single append to
the empty buffer already leaves more than `maxMessages` entries, so the
claimed bound fails at capacity 0. -/
theorem ring_buffer_zero_capacity_counterexample :
    ¬((appendBounded 0 [] msgC).length ≤ 0) := by decide

/-- C5 amended: for every capacity `maxMessages ≥ 1`, after any sequence of
appends starting from the empty buffer the buffer equals exactly the most
recent `maxMessages` appended messages in append order (strict FIFO
eviction of the oldest), and in particular its length never exceeds
`maxMessages`. -/
theorem ring_buffer_bounded_fifo (maxM : Nat) (h : 1 ≤ maxM)
    (ms : List WebSocketMessage) :
    List.foldl (appendBounded maxM) [] ms = takeLast maxM ms ∧
    (List.foldl (appendBounded maxM) [] ms).length ≤ maxM := by
  have he := foldl_appendBounded maxM h ms
  refine ⟨he, ?_⟩
  rw [he, takeLast, List.length_drop]
  omega

/-- Witness for `ring_buffer_bounded_fifo` at capacity 2 with 3 appends. -/
theorem ring_buffer_bounded_fifo_witness :
    1 ≤ 2 ∧
    (List.foldl (appendBounded 2) [] [msgC, msgC, msgC] =
        takeLast 2 [msgC, msgC, msgC] ∧
      (List.foldl (appendBounded 2) [] [msgC, msgC, msgC]).length ≤ 2) :=
  ⟨by decide, ring_buffer_bounded_fifo 2 (by decide) [msgC, msgC, msgC]⟩

/-- C4: a manual `disconnect` always clears any pending retry timer and
schedules nothing; the close event it provokes carries the manual code 1000,
for which `ws.onclose` never schedules a reconnect, so after a manual close
no retry timer is pending. -/
theorem manual_close_never_schedules (maxAttempts : Nat) (s t : WsState) :
    (disconnect s).pendingTimer = false ∧
    (onCloseStep maxAttempts 1000 t).2 = false ∧
    (onCloseStep maxAttempts 1000 (disconnect s)).1.pendingTimer = false := by
  refine ⟨rfl, ?_, ?_⟩ <;> simp [onCloseStep, disconnect]

/-! ## Agent map lemmas -/

/-- The last event of the sequence whose `agent` field is `k`, if any
(later events shadow earlier ones). -/
def lastEventFor (k : String) : List AgentEvent → Option AgentEvent
  | [] => none
  | e :: es =>
      match lastEventFor k es with
      | some e' => some e'
      | none => if k = e.agent then some e else none

/-- The subsequence of events whose `agent` field is `k`, in order. -/
def perName (k : String) (es : List AgentEvent) : List AgentEvent :=
  es.filter (fun e => decide (k = e.agent))

lemma applyEvents_lookup (m : AgentMap) (es : List AgentEvent) (k : String) :
    applyEvents m es k =
      match lastEventFor k es with
      | some e => some (mkAgentStatus e)
      | none => m k := by
  induction es generalizing m with
  | nil => rfl
  | cons e es ih =>
      simp only [applyEvents, List.foldl_cons] at ih ⊢
      rw [ih]
      simp only [lastEventFor]
      cases hles : lastEventFor k es with
      | some e' => rfl
      | none =>
          simp only [updateAgent]
          by_cases hk : k = e.agent
          · simp [hk]
          · simp [hk]

lemma lastEventFor_perName (k : String) (es : List AgentEvent) :
    lastEventFor k (perName k es) = lastEventFor k es := by
  induction es with
  | nil => rfl
  | cons e es ih =>
      simp only [perName, List.filter_cons] at ih ⊢
      by_cases hk : k = e.agent
      · rw [if_pos (by simp [hk])]
        simp only [lastEventFor, ih]
      · rw [if_neg (by simp [hk])]
        rw [ih]
        simp only [lastEventFor]
        cases lastEventFor k es with
        | some e' => rfl
        | none => simp [hk]

/-- The everywhere-empty agents map (fresh subscription). -/
def emptyAgentMap : AgentMap := fun _ => none

/-- Concrete event: agent `A` running. -/
def evA : AgentEvent :=
  { agent := "A", status := "running", progress := some 40, message := none,
    timestamp := some "t1", receivedAt := "r1" }

/-- Concrete event: agent `B` pending. -/
def evB : AgentEvent :=
  { agent := "B", status := "pending", progress := none, message := some "m",
    timestamp := none, receivedAt := "r2" }

/-- C3: applying a finite event sequence to any initial map gives, at every
name, the entry built from the last event for that name (or the initial
entry when the sequence never mentions it); any two sequences with the same
per-name subsequences produce the same map; an event leaves every other
name's entry unchanged; and a name mentioned by the sequence is present in
the result. -/
theorem agent_map_merge (m : AgentMap) (es : List AgentEvent) (k : String) :
    (applyEvents m es k =
      match lastEventFor k es with
      | some e => some (mkAgentStatus e)
      | none => m k) ∧
    (∀ es2, (∀ k2, perName k2 es = perName k2 es2) →
      ∀ k2, applyEvents m es k2 = applyEvents m es2 k2) ∧
    (∀ e, k ≠ e.agent → updateAgent m e k = m k) ∧
    ((lastEventFor k es).isSome → (applyEvents m es k).isSome) := by
  refine ⟨applyEvents_lookup m es k, ?_, ?_, ?_⟩
  · intro es2 hperm k2
    rw [applyEvents_lookup, applyEvents_lookup, ← lastEventFor_perName k2 es,
      ← lastEventFor_perName k2 es2, hperm k2]
  · intro e hne
    simp [updateAgent, hne]
  · intro hs
    rw [applyEvents_lookup]
    cases hles : lastEventFor k es with
    | some e' => simp
    | none => rw [hles] at hs; simp at hs

/-- Witness for `agent_map_merge` on the two-event sequence `[evA, evB]`
against its per-name-order-preserving permutation `[evB, evA]`. -/
theorem agent_map_merge_witness :
    (applyEvents emptyAgentMap [evA, evB] "A" =
      match lastEventFor "A" [evA, evB] with
      | some e => some (mkAgentStatus e)
      | none => emptyAgentMap "A") ∧
    (∀ k2, applyEvents emptyAgentMap [evA, evB] k2 =
      applyEvents emptyAgentMap [evB, evA] k2) ∧
    (updateAgent emptyAgentMap evB "A" = emptyAgentMap "A") ∧
    ((applyEvents emptyAgentMap [evA, evB] "A").isSome) := by
  have hperm : ∀ k2, perName k2 [evA, evB] = perName k2 [evB, evA] := by
    intro k2
    simp only [perName, List.filter_cons, List.filter_nil, evA, evB]
    by_cases h1 : k2 = "A"
    · subst h1
      decide
    · by_cases h2 : k2 = "B"
      · subst h2
        decide
      · simp [h1, h2]
  have h := agent_map_merge emptyAgentMap [evA, evB] "A"
  exact ⟨h.1, h.2.1 [evB, evA] hperm, h.2.2.1 evB (by decide),
    h.2.2.2 (by decide)⟩

/-- A map in which agent `A` has terminal status `failed`. -/
def failedMapC : AgentMap :=
  fun k => if k = "A" then
    some { agent := "A", status := "failed", progress := none, message := none,
           timestamp := "t0" }
  else none

/-- C2 counterexample: the `onmessage` updater has no guard for a `failed`
existing status — applying a later `running` event for agent `A` over a map
where `A` is `failed` yields status `running`, not `failed`. -/
theorem failed_not_terminal_counterexample :
    (failedMapC "A").map AgentStatusR.status = some "failed" ∧
    (updateAgent failedMapC evA "A").map AgentStatusR.status = some "running" ∧
    some "running" ≠ some ("failed" : String) := by
  refine ⟨rfl, rfl, by decide⟩

/-- C2 amended: a later `AgentStatus` event for a name replaces that name's
entry wholesale, including the `status` field, regardless of the existing
entry — `failed` is not terminal in the code. -/
theorem agent_entry_replaced_wholesale (m : AgentMap) (e : AgentEvent) :
    updateAgent m e e.agent = some (mkAgentStatus e) := by
  simp [updateAgent]

/-- C9: the set of names present in the `agentStatuses` map is
non-decreasing under any finite sequence of processed events — an entry,
once present, is still present after any further events. -/
theorem agent_entries_never_deleted (m : AgentMap) (es : List AgentEvent)
    (k : String) (h : (m k).isSome) : (applyEvents m es k).isSome := by
  induction es generalizing m with
  | nil => exact h
  | cons e es ih =>
      simp only [applyEvents, List.foldl_cons] at ih ⊢
      apply ih
      by_cases hk : k = e.agent
      · simp [updateAgent, hk]
      · simpa [updateAgent, hk] using h

/-- Witness for `agent_entries_never_deleted`: agent `A` survives a later
event for agent `B`. -/
theorem agent_entries_never_deleted_witness :
    (failedMapC "A").isSome ∧ (applyEvents failedMapC [evB] "A").isSome :=
  ⟨by decide, agent_entries_never_deleted failedMapC [evB] "A" (by decide)⟩

/-! ## Remaining claim theorems -/

/-- C6: a `complete_status` frame replaces the whole enhanced status
wholesale: the resulting agents map is exactly the one carried by the event
(names absent from the event are gone, whatever the previous state held),
and the workflow summary is exactly the event's. -/
theorem complete_status_wholesale (s : Option EnhancedStatusState)
    (d : EnhancedStatusState) :
    applyWsStatusEvent s (WsStatusEvent.complete_status d) = some d ∧
    (∀ k, (applyWsStatusEvent s (WsStatusEvent.complete_status d)).elim none
        (fun p => p.agents k) = d.agents k) ∧
    (applyWsStatusEvent s (WsStatusEvent.complete_status d)).elim none
        EnhancedStatusState.workflow_progress = d.workflow_progress := by
  exact ⟨rfl, fun k => rfl, rfl⟩

/-- C7: when the frame payload fails to parse (the host `JSON.parse` throws,
i.e. the parse outcome is `none`), both stream handlers drop the frame:
`useRealTimeStatus` leaves its whole state (agent map, `lastUpdate`,
`error`, `isConnected`) unchanged, and `useAgentStatus` leaves its status
unchanged and dispatches no listener notification. -/
theorem parse_failure_drops_frame (p1 : String → Option AgentEvent)
    (p2 : String → Option ASData) (raw : String)
    (h1 : p1 raw = none) (h2 : p2 raw = none) (st : RtSnap)
    (s2 : Option ASData) (ns : List ASData) :
    handleFrame p1 raw st = st ∧ uasOnMessage p2 raw s2 ns = (s2, ns) := by
  constructor
  · simp [handleFrame, h1]
  · simp [uasOnMessage, h2]

/-- A concrete `useRealTimeStatus` state for the C7 witness. -/
def rtSnapC : RtSnap :=
  { agentStatuses := emptyAgentMap, isConnected := true, error := none,
    lastUpdate := none }

/-- Witness for `parse_failure_drops_frame` on a non-JSON frame with the
always-failing parse outcome. -/
theorem parse_failure_drops_frame_witness :
    ((fun _ : String => (none : Option AgentEvent)) "not json" = none) ∧
    ((fun _ : String => (none : Option ASData)) "not json" = none) ∧
    (handleFrame (fun _ => none) "not json" rtSnapC = rtSnapC ∧
      uasOnMessage (fun _ => none) "not json" none [] = (none, [])) :=
  ⟨rfl, rfl, parse_failure_drops_frame (fun _ => none) (fun _ => none)
    "not json" rfl rfl rtSnapC none []⟩

/-- A `useRealTimeStatus` connection currently holding a live transport. -/
def rtConnectedC : RtConnState :=
  { es := some 0, nextId := 1, closedIds := [], isConnected := true,
    error := none }

/-- C8 counterexample: `connect()` of `useRealTimeStatus` on a handle whose
transport is live is not a no-op — it closes the existing `EventSource` and
creates a fresh one. -/
theorem open_connected_not_noop_counterexample :
    rtConnect rtConnectedC ≠ rtConnectedC ∧
    (rtConnect rtConnectedC).es = some 1 ∧
    (rtConnect rtConnectedC).closedIds = [0] := by
  refine ⟨by decide, rfl, rfl⟩

/-- C8 amended: the WebSocket hook's `connect` on an already-OPEN socket is
a no-op, while the SSE hook's `connect` first closes any existing transport
and then installs exactly one fresh transport — so in both hooks at most
one live transport exists per handle at any time. -/
theorem single_live_transport (ok : Bool) (s : WsState)
    (h : s.ws = some ReadyState.opened) (r : RtConnState) :
    connect ok s = s ∧
    (rtConnect r).es = some r.nextId ∧
    (∀ i, r.es = some i → (rtConnect r).closedIds = i :: r.closedIds) := by
  refine ⟨by simp [connect, h], rfl, ?_⟩
  intro i hi
  simp [rtConnect, hi]

/-- Witness for `single_live_transport` on a freshly connected socket state
and a live SSE connection. -/
theorem single_live_transport_witness :
    wsFreshC.ws = some ReadyState.opened ∧
    (connect true wsFreshC = wsFreshC ∧
      (rtConnect rtConnectedC).es = some rtConnectedC.nextId ∧
      (∀ i, rtConnectedC.es = some i →
        (rtConnect rtConnectedC).closedIds = i :: rtConnectedC.closedIds)) :=
  ⟨rfl, single_live_transport true wsFreshC rfl rtConnectedC⟩

/-- C10: `sendMessage` on a socket that is not OPEN is a safe no-op — the
state (including the transmitted-frame log, the message buffer and the id
counter) is returned unchanged and no fault is raised; moreover even on an
OPEN socket the buffer is only appended to when the transport send
succeeds. -/
theorem send_not_open_noop (maxM : Nat) (ok : Bool) (now : Nat)
    (dataStr : String) (s : WsState) (h : s.ws ≠ some ReadyState.opened) :
    sendMessage maxM ok now dataStr s = s ∧
    (∀ s2 : WsState, sendMessage maxM false now dataStr s2 = s2) := by
  constructor
  · simp [sendMessage, h]
  · intro s2
    unfold sendMessage
    split <;> simp

/-- A hook state with no socket (disconnected). -/
def wsClosedC : WsState :=
  { messages := [], isConnected := false,
    connectionStatus := ConnStatus.disconnected, lastMessage := none,
    ws := none, pendingTimer := false, reconnectAttempts := 0,
    messageId := 0, sentFrames := [] }

/-- Witness for `send_not_open_noop` on a disconnected state. -/
theorem send_not_open_noop_witness :
    wsClosedC.ws ≠ some ReadyState.opened ∧
    (sendMessage 1000 true 0 "hi" wsClosedC = wsClosedC ∧
      (∀ s2 : WsState, sendMessage 1000 false 0 "hi" s2 = s2)) :=
  ⟨by decide, send_not_open_noop 1000 true 0 "hi" wsClosedC (by decide)⟩

end LimAuto
